import Mathlib

/-!
Verification development for the Judgement card-game server
(src/judgement: models.py, game_logic.py, room_manager.py,
websocket_handler.py), shallowly embedded in Lean 4.

Python dicts are modelled as insertion-ordered association lists with
unique keys; Python `Optional` as `Option`; Python `int` as `Int` and
non-negative counters as `Nat`.  Code paths that can only be reached by
raising an exception in Python (list index out of range, failed
`assert`) are totalized with an explicitly marked default; every theorem
below is stated under hypotheses that keep the embedding on the
exception-free paths the server actually exercises.
-/

/-- Suit enum from models.py. -/
inductive Suit where
  | spades
  | diamonds
  | clubs
  | hearts
deriving DecidableEq, Repr

/-- Card: suit plus rank 2..14; equality by value (models.Card). -/
structure Card where
  suit : Suit
  rank : Nat
deriving DecidableEq, Repr

/-- Player record (models.Player). `bid` stays `none` until placed. -/
structure Player where
  id : String
  name : String
  hand : List Card
  bid : Option Int
  tricks_won : Nat
  total_score : Int
deriving DecidableEq, Repr

/-- Trick record (models.Trick): play-ordered (player_id, card) pairs. -/
structure Trick where
  lead_player_id : String
  cards_played : List (String × Card)
  winner_id : Option String
deriving DecidableEq, Repr

/-- Game phase enum (models.GamePhase). -/
inductive GamePhase where
  | waiting
  | dealing
  | bidding
  | playing
  | round_result
  | game_over
deriving DecidableEq, Repr

/-- Round state (models.RoundState); `bids` is a dict player_id to bid. -/
structure RoundState where
  round_index : Nat
  num_cards : Nat
  trump_suit : Suit
  dealer_index : Nat
  current_bidder_index : Nat
  bids : List (String × Int)
  current_trick : Option Trick
  tricks_completed : List Trick
  trick_number : Nat
deriving DecidableEq, Repr

/-- Per-player entry of the dict built by game_logic.score_round. -/
structure ScoreResult where
  player_id : String
  player_name : String
  bid : Int
  tricks_won : Nat
  met_bid : Bool
  points_earned : Int
  total_score : Int
deriving DecidableEq, Repr

/-- Per-round snapshot appended to Game.scores_history by score_round. -/
structure ScoreSnapshot where
  round_index : Nat
  num_cards : Nat
  results : List ScoreResult
deriving DecidableEq, Repr

/-- Game aggregate (models.Game). -/
structure Game where
  room_code : String
  host_id : String
  players : List Player
  phase : GamePhase
  round_sequence : List Nat
  current_round_index : Nat
  current_round : Option RoundState
  dealer_index : Nat
  current_turn_index : Nat
  scores_history : List ScoreSnapshot
deriving DecidableEq, Repr

/-- Pyramid round sequence for a given player count
(models.Game.build_round_sequence): ascending 1..peak then descending
peak-1..1, with peak = min 10 (52 // player_count). -/
def buildRoundSequence (player_count : Nat) : List Nat :=
  let max_cards := 52 / player_count
  let peak := min 10 max_cards
  let ascending := (List.range peak).map (· + 1)
  let descending := ((List.range (peak - 1)).map (· + 1)).reverse
  ascending ++ descending

/-- Game.build_round_sequence stores the pyramid built from the
current player count. -/
def Game.build_round_sequence (g : Game) : Game :=
  { g with round_sequence := buildRoundSequence g.players.length }

/-- Concrete players used by witnesses below. -/
def playerA : Player :=
  { id := "a", name := "Alice", hand := [], bid := none,
    tricks_won := 0, total_score := 0 }

def playerB : Player :=
  { id := "b", name := "Bob", hand := [], bid := none,
    tricks_won := 0, total_score := 0 }

def playerC : Player :=
  { id := "c", name := "Cara", hand := [], bid := none,
    tricks_won := 0, total_score := 0 }

def playerD : Player :=
  { id := "d", name := "Dan", hand := [], bid := none,
    tricks_won := 0, total_score := 0 }

/-- A four-player game still in the waiting phase. -/
def gameWaiting4 : Game :=
  { room_code := "ROOM01", host_id := "a",
    players := [playerA, playerB, playerC, playerD],
    phase := GamePhase.waiting, round_sequence := [],
    current_round_index := 0, current_round := none,
    dealer_index := 0, current_turn_index := 0, scores_history := [] }

/-- C1 counterexample: for the four-player game the pyramid
1..10..1 sums to 100, so sum(round_sequence) ≤ 52 fails. -/
theorem c1_sum_bound_fails :
    (gameWaiting4.build_round_sequence).round_sequence.sum = 100 ∧
      ¬ (gameWaiting4.build_round_sequence).round_sequence.sum ≤ 52 := by
  constructor <;> decide

/-- Helper: the pyramid properties of buildRoundSequence, checked for
each admissible player count. -/
lemma buildRoundSequence_pyramid (p : Nat) (h4 : 4 ≤ p) (h6 : p ≤ 6) :
    (buildRoundSequence p).length = 2 * min 10 (52 / p) - 1 ∧
      (∀ i < (buildRoundSequence p).length, (buildRoundSequence p).getD i 0 =
        if i < min 10 (52 / p) then i + 1 else 2 * min 10 (52 / p) - 1 - i) ∧
      (buildRoundSequence p).reverse = buildRoundSequence p ∧
      (∀ x ∈ buildRoundSequence p, x * p ≤ 52) := by
  interval_cases p <;> decide

/-- C1 (amended): for every player count 4 ≤ p ≤ 6 the sequence built
by Game.build_round_sequence is the symmetric ascending-then-descending
pyramid with peak min 10 (52 / p) — entry i is i+1 while ascending and
2*peak-1-i while descending, the sequence is a palindrome of length
2*peak-1 — and every single round deals at most 52 cards
(entry * p ≤ 52); the total over all rounds can exceed 52. -/
theorem c1_round_sequence_pyramid (g : Game)
    (h4 : 4 ≤ g.players.length) (h6 : g.players.length ≤ 6) :
    let p := g.players.length
    let seq := (g.build_round_sequence).round_sequence
    let peak := min 10 (52 / p)
    seq.length = 2 * peak - 1 ∧
      (∀ i < seq.length, seq.getD i 0 =
        if i < peak then i + 1 else 2 * peak - 1 - i) ∧
      seq.reverse = seq ∧
      (∀ x ∈ seq, x * p ≤ 52) :=
  buildRoundSequence_pyramid g.players.length h4 h6

/-- C1 witness: the amended statement at the concrete 4-player game. -/
theorem c1_round_sequence_pyramid_witness :
    let p := gameWaiting4.players.length
    let seq := (gameWaiting4.build_round_sequence).round_sequence
    let peak := min 10 (52 / p)
    seq.length = 2 * peak - 1 ∧
      (∀ i < seq.length, seq.getD i 0 =
        if i < peak then i + 1 else 2 * peak - 1 - i) ∧
      seq.reverse = seq ∧
      (∀ x ∈ seq, x * p ≤ 52) :=
  c1_round_sequence_pyramid gameWaiting4 (by decide) (by decide)

/-- Lookup in an insertion-ordered dict: value of the first entry with
the given key (Python dict read). -/
def dictGet? {α : Type} (d : List (String × α)) (k : String) : Option α :=
  (d.find? (fun kv => kv.1 = k)).map (fun kv => kv.2)

/-- Dict write (Python `d[k] = v`): update the entry in place if the key
is present, otherwise append at the end (insertion order). -/
def dictSet {α : Type} (d : List (String × α)) (k : String) (v : α) :
    List (String × α) :=
  if (d.find? (fun kv => kv.1 = k)).isSome then
    d.map (fun kv => if kv.1 = k then (k, v) else kv)
  else
    d ++ [(k, v)]

/-- Dict delete (Python `d.pop(k, None)`): drop the first entry with the
given key, keep everything else. -/
def dictPop {α : Type} : List (String × α) → String → List (String × α)
  | [], _ => []
  | kv :: t, k => if kv.1 = k then t else kv :: dictPop t k

/-- Bidding order (game_logic.get_bidding_order): player indices
starting left of the dealer, dealer last. -/
def getBiddingOrder (g : Game) : List Nat :=
  let n := g.players.length
  (List.range n).map (fun i => (g.dealer_index + 1 + i) % n)

/-- Forbidden dealer bid (game_logic.get_forbidden_bid).  The dealer
position comparison is done over Int because Python computes
len(players) - 1 as a possibly negative int. -/
def getForbiddenBid (g : Game) : Option Int :=
  match g.current_round with
  | none => none
  | some r =>
    let dealer_position : Int := (g.players.length : Int) - 1
    if (r.current_bidder_index : Int) ≠ dealer_position then none
    else
      let total_bids_so_far : Int := (r.bids.map (fun kv => kv.2)).sum
      let forbidden : Int := (r.num_cards : Int) - total_bids_so_far
      if 0 ≤ forbidden ∧ forbidden ≤ (r.num_cards : Int) then some forbidden
      else none

/-- Bid validation (game_logic.validate_bid).  Error strings are
abbreviated; the two inner `none` lookup cases are unreachable index
errors in Python (the bidding order always has one slot per player and
every entry of it is a valid player index) and are totalized to the
out-of-turn error. -/
def validateBid (g : Game) (player_id : String) (bid : Int) :
    Option String :=
  if g.phase ≠ GamePhase.bidding then some "Not in bidding phase"
  else
    match g.current_round with
    | none => some "No active round"
    | some r =>
      match (getBiddingOrder g).get? r.current_bidder_index with
      | none => some "Not your turn to bid"
      | some expected_player_index =>
        match g.players.get? expected_player_index with
        | none => some "Not your turn to bid"
        | some expected_player =>
          if expected_player.id ≠ player_id then some "Not your turn to bid"
          else if bid < 0 ∨ bid > (r.num_cards : Int) then
            some "Bid out of range"
          else
            match getForbiddenBid g with
            | some forbidden =>
              if bid = forbidden then some "Dealer cannot bid forbidden value"
              else none
            | none => none

/-- Helper: getForbiddenBid yields a value only with an active round and
the bidder at the dealer position. -/
lemma getForbiddenBid_isSome (g : Game) (h : (getForbiddenBid g).isSome) :
    ∃ r, g.current_round = some r ∧
      (r.current_bidder_index : Int) = (g.players.length : Int) - 1 := by
  unfold getForbiddenBid at h
  match hr : g.current_round with
  | none => rw [hr] at h; simp at h
  | some r =>
    rw [hr] at h
    refine ⟨r, rfl, ?_⟩
    by_contra hne
    simp only [if_pos hne, Option.isSome_none] at h
    exact Bool.false_ne_true h

/-- Helper: at the dealer position the forbidden bid is
num_cards minus the bids placed so far, returned iff it lies in
range. -/
lemma getForbiddenBid_dealer (g : Game) (r : RoundState)
    (hr : g.current_round = some r)
    (hd : (r.current_bidder_index : Int) = (g.players.length : Int) - 1) :
    getForbiddenBid g =
      (if 0 ≤ (r.num_cards : Int) - (r.bids.map (fun kv => kv.2)).sum ∧
          (r.num_cards : Int) - (r.bids.map (fun kv => kv.2)).sum ≤
            (r.num_cards : Int)
       then some ((r.num_cards : Int) - (r.bids.map (fun kv => kv.2)).sum)
       else none) := by
  unfold getForbiddenBid
  rw [hr]
  simp [hd]

/-- Helper: for the expected bidder with an in-range bid, validation
fails exactly when the bid equals the forbidden value. -/
lemma validateBid_isSome_iff (g : Game) (r : RoundState) (p : Player)
    (e : Nat) (bid : Int)
    (hphase : g.phase = GamePhase.bidding)
    (hr : g.current_round = some r)
    (he : (getBiddingOrder g).get? r.current_bidder_index = some e)
    (hp : g.players.get? e = some p)
    (h0 : 0 ≤ bid) (h1 : bid ≤ (r.num_cards : Int)) :
    (validateBid g p.id bid).isSome ↔ getForbiddenBid g = some bid := by
  unfold validateBid
  rw [if_neg (by simp [hphase]), hr]
  dsimp only
  rw [he]
  dsimp only
  rw [hp]
  dsimp only
  rw [if_neg (by simp)]
  rw [if_neg (show ¬ (bid < 0 ∨ bid > (r.num_cards : Int)) by
    push_neg
    exact ⟨h0, h1⟩)]
  rcases hf : getForbiddenBid g with _ | f
  · simp
  · by_cases hbf : bid = f
    · subst hbf
      simp
    · have hbf2 : ¬ f = bid := fun h => hbf h.symm
      simp [hbf, hbf2]

/-- C2: getForbiddenBid answers only when the current bidder sits at the
last position of the rotation (the dealer seat, len(players) - 1); there
it returns num_cards minus the bids placed so far exactly when that
value lies in [0, num_cards]; and for the expected bidder with an
in-range bid, validate_bid rejects the bid exactly when it equals the
returned forbidden value. -/
theorem c2_forbidden_bid_spec :
    (∀ g : Game, (getForbiddenBid g).isSome →
      ∃ r, g.current_round = some r ∧
        (r.current_bidder_index : Int) = (g.players.length : Int) - 1) ∧
    (∀ (g : Game) (r : RoundState), g.current_round = some r →
      (r.current_bidder_index : Int) = (g.players.length : Int) - 1 →
      getForbiddenBid g =
        (if 0 ≤ (r.num_cards : Int) - (r.bids.map (fun kv => kv.2)).sum ∧
            (r.num_cards : Int) - (r.bids.map (fun kv => kv.2)).sum ≤
              (r.num_cards : Int)
         then some ((r.num_cards : Int) - (r.bids.map (fun kv => kv.2)).sum)
         else none)) ∧
    (∀ (g : Game) (r : RoundState) (p : Player) (e : Nat) (bid : Int),
      g.phase = GamePhase.bidding → g.current_round = some r →
      (getBiddingOrder g).get? r.current_bidder_index = some e →
      g.players.get? e = some p →
      0 ≤ bid → bid ≤ (r.num_cards : Int) →
      ((validateBid g p.id bid).isSome ↔ getForbiddenBid g = some bid)) :=
  ⟨getForbiddenBid_isSome, getForbiddenBid_dealer,
    fun g r p e bid hphase hr he hp h0 h1 =>
      validateBid_isSome_iff g r p e bid hphase hr he hp h0 h1⟩

/-- A one-card round where the dealer (seat 0, bidding last) faces
forbidden bid 0: the other three players bid 0, 0 and 1. -/
def roundBid1 : RoundState :=
  { round_index := 0, num_cards := 1, trump_suit := Suit.spades,
    dealer_index := 0, current_bidder_index := 3,
    bids := [("b", 0), ("c", 0), ("d", 1)], current_trick := none,
    tricks_completed := [], trick_number := 0 }

/-- The four-player game during bidding of that one-card round. -/
def gameBidding4 : Game :=
  { gameWaiting4 with
    phase := GamePhase.bidding,
    round_sequence := buildRoundSequence 4,
    current_round := some roundBid1 }

/-- C2 witness: in the concrete game the dealer bid 0 is rejected
exactly because the forbidden value is 0. -/
theorem c2_forbidden_bid_spec_witness :
    (validateBid gameBidding4 playerA.id 0).isSome ↔
      getForbiddenBid gameBidding4 = some 0 :=
  c2_forbidden_bid_spec.2.2 gameBidding4 roundBid1 playerA 0 0
    (by decide) (by decide) (by decide) (by decide) (by decide) (by decide)

/-- C3: whenever it is the dealer's turn in the bidding phase of a round
with at least one card, some bid in [0, num_cards] passes
validate_bid — the dealer always has a legal bid. -/
theorem c3_dealer_has_legal_bid (g : Game) (r : RoundState) (p : Player)
    (e : Nat)
    (hphase : g.phase = GamePhase.bidding)
    (hr : g.current_round = some r)
    (hnum : 1 ≤ r.num_cards)
    (_hd : (r.current_bidder_index : Int) = (g.players.length : Int) - 1)
    (he : (getBiddingOrder g).get? r.current_bidder_index = some e)
    (hp : g.players.get? e = some p) :
    ∃ bid : Int, 0 ≤ bid ∧ bid ≤ (r.num_cards : Int) ∧
      validateBid g p.id bid = none := by
  have hnum0 : (0 : Int) ≤ (r.num_cards : Int) := by positivity
  have hnum1 : (1 : Int) ≤ (r.num_cards : Int) := by exact_mod_cast hnum
  match hf : getForbiddenBid g with
  | none =>
    refine ⟨0, le_refl 0, hnum0, ?_⟩
    have h := validateBid_isSome_iff g r p e 0 hphase hr he hp
      (le_refl 0) hnum0
    rw [hf] at h
    simp only [reduceCtorEq, iff_false] at h
    exact Option.not_isSome_iff_eq_none.mp h
  | some f =>
    by_cases hf0 : f = 0
    · refine ⟨(r.num_cards : Int), hnum0, le_refl _, ?_⟩
      have h := validateBid_isSome_iff g r p e (r.num_cards : Int)
        hphase hr he hp hnum0 (le_refl _)
      rw [hf, hf0] at h
      have hne : ¬ ((some (0 : Int)) = some ((r.num_cards : Int))) := by
        simp only [Option.some.injEq]
        omega
      rw [iff_iff_implies_and_implies] at h
      exact Option.not_isSome_iff_eq_none.mp (fun hs => hne (h.1 hs))
    · refine ⟨0, le_refl 0, hnum0, ?_⟩
      have h := validateBid_isSome_iff g r p e 0 hphase hr he hp
        (le_refl 0) hnum0
      rw [hf] at h
      have hne : ¬ ((some f) = some (0 : Int)) := by
        simp only [Option.some.injEq]
        exact hf0
      rw [iff_iff_implies_and_implies] at h
      exact Option.not_isSome_iff_eq_none.mp (fun hs => hne (h.1 hs))

/-- C3 witness: the concrete dealer, forbidden from bidding 0, still has
a legal bid. -/
theorem c3_dealer_has_legal_bid_witness :
    ∃ bid : Int, 0 ≤ bid ∧ bid ≤ ((roundBid1.num_cards : Int)) ∧
      validateBid gameBidding4 playerA.id bid = none :=
  c3_dealer_has_legal_bid gameBidding4 roundBid1 playerA 0
    (by decide) (by decide) (by decide) (by decide) (by decide) (by decide)

/-- Per-player scoring step of game_logic.score_round: bid defaults to
0 when unset; met bids earn 10 for bid 0, 11 for bid 1, else bid * 10;
missed bids earn 0; the points are added to the running total. -/
def scorePlayer (p : Player) : Player × ScoreResult :=
  let bid : Int := p.bid.getD 0
  let won := p.tricks_won
  let points : Int :=
    if (won : Int) = bid then
      if bid = 0 then 10 else if bid = 1 then 11 else bid * 10
    else 0
  let p2 := { p with total_score := p.total_score + points }
  (p2,
    { player_id := p.id, player_name := p.name, bid := bid,
      tricks_won := won, met_bid := decide ((won : Int) = bid),
      points_earned := points, total_score := p2.total_score })

/-- game_logic.score_round: scores every player in seat order, updates
their totals, and appends one snapshot to scores_history. -/
def scoreRound (g : Game) : Game × List ScoreResult :=
  let scored := g.players.map scorePlayer
  let results := scored.map (fun pr => pr.2)
  let snapshot : ScoreSnapshot :=
    { round_index := g.current_round_index,
      num_cards := (g.current_round.map (fun r => r.num_cards)).getD 0,
      results := results }
  ({ g with
     players := scored.map (fun pr => pr.1),
     scores_history := g.scores_history ++ [snapshot] },
   results)

/-- C4: each scored player earns 10 for a met bid of 0, 11 for a met
bid of 1, bid*10 for any other met bid and 0 for a missed bid; points
are positive exactly when the bid was met; the points are added to the
player's total and one snapshot is appended to scores_history. -/
theorem c4_scoring (g : Game) (i : Nat) (hi : i < g.players.length) :
    let p := g.players.get ⟨i, hi⟩
    let bid : Int := p.bid.getD 0
    let points : Int :=
      if (p.tricks_won : Int) = bid then
        if bid = 0 then 10 else if bid = 1 then 11 else bid * 10
      else 0
    ∃ res : ScoreResult,
      (scoreRound g).2.get? i = some res ∧
      res.points_earned = points ∧
      (0 < res.points_earned ↔ (p.tricks_won : Int) = bid) ∧
      (scoreRound g).1.players.get? i =
        some { p with total_score := p.total_score + points } ∧
      (scoreRound g).1.scores_history =
        g.scores_history ++
          [{ round_index := g.current_round_index,
             num_cards := (g.current_round.map (fun r => r.num_cards)).getD 0,
             results := (scoreRound g).2 }] := by
  intro p bid points
  have hp : g.players.get? i = some p := List.get?_eq_get hi
  refine ⟨(scorePlayer p).2, ?_, ?_, ?_, ?_, ?_⟩
  · show ((g.players.map scorePlayer).map (fun pr => pr.2)).get? i = _
    rw [List.get?_map, List.get?_map, hp]
    rfl
  · rfl
  · show (0 < points ↔ _)
    by_cases hmet : (p.tricks_won : Int) = bid
    · simp only [points, if_pos hmet, hmet, iff_true]
      by_cases hb0 : bid = 0
      · simp [hb0]
      · by_cases hb1 : bid = 1
        · simp [hb0, hb1]
        · have hwon : (0 : Int) ≤ bid := hmet ▸ Int.ofNat_nonneg p.tricks_won
          simp only [if_neg hb0, if_neg hb1]
          omega
    · simp [points, hmet]
  · show ((g.players.map scorePlayer).map (fun pr => pr.1)).get? i = _
    rw [List.get?_map, List.get?_map, hp]
    rfl
  · rfl

/-- C4 witness: scoring the concrete waiting game at seat 0. -/
theorem c4_scoring_witness :
    let p := gameWaiting4.players.get ⟨0, by decide⟩
    let bid : Int := p.bid.getD 0
    let points : Int :=
      if (p.tricks_won : Int) = bid then
        if bid = 0 then 10 else if bid = 1 then 11 else bid * 10
      else 0
    ∃ res : ScoreResult,
      (scoreRound gameWaiting4).2.get? 0 = some res ∧
      res.points_earned = points ∧
      (0 < res.points_earned ↔ (p.tricks_won : Int) = bid) ∧
      (scoreRound gameWaiting4).1.players.get? 0 =
        some { p with total_score := p.total_score + points } ∧
      (scoreRound gameWaiting4).1.scores_history =
        gameWaiting4.scores_history ++
          [{ round_index := gameWaiting4.current_round_index,
             num_cards :=
               (gameWaiting4.current_round.map (fun r => r.num_cards)).getD 0,
             results := (scoreRound gameWaiting4).2 }] :=
  c4_scoring gameWaiting4 0 (by decide)

/-- C9: a player whose bid was never set is scored as if the bid were
0 — with 0 tricks won the bid counts as met and earns 10 points. -/
theorem c9_unset_bid_scored_as_zero (g : Game) (i : Nat)
    (hi : i < g.players.length)
    (hb : (g.players.get ⟨i, hi⟩).bid = none)
    (hw : (g.players.get ⟨i, hi⟩).tricks_won = 0) :
    ∃ res : ScoreResult,
      (scoreRound g).2.get? i = some res ∧ res.bid = 0 ∧
      res.met_bid = true ∧ res.points_earned = 10 := by
  have hp : g.players.get? i = some (g.players.get ⟨i, hi⟩) :=
    List.get?_eq_get hi
  have hb2 : g.players[i].bid = none := hb
  have hw2 : g.players[i].tricks_won = 0 := hw
  refine ⟨(scorePlayer (g.players.get ⟨i, hi⟩)).2, ?_, ?_, ?_, ?_⟩
  · show ((g.players.map scorePlayer).map (fun pr => pr.2)).get? i = _
    rw [List.get?_map, List.get?_map, hp]
    rfl
  · simp [scorePlayer, hb2]
  · simp [scorePlayer, hb2, hw2]
  · simp [scorePlayer, hb2, hw2]

/-- C9 witness: seat 0 of the waiting game has no bid and no tricks and
is scored 10 points with the bid counted as met. -/
theorem c9_unset_bid_scored_as_zero_witness :
    ∃ res : ScoreResult,
      (scoreRound gameWaiting4).2.get? 0 = some res ∧ res.bid = 0 ∧
      res.met_bid = true ∧ res.points_earned = 10 :=
  c9_unset_bid_scored_as_zero gameWaiting4 0 (by decide) (by decide)
    (by decide)

/-- game_logic._beats: whether the challenger card beats the current
best card, given the led suit and the trump suit. -/
def beats (challenger current_best : Card) (led_suit trump_suit : Suit) :
    Bool :=
  if challenger.suit = trump_suit ∧ ¬ current_best.suit = trump_suit then
    true
  else if ¬ challenger.suit = trump_suit ∧ current_best.suit = trump_suit then
    false
  else if challenger.suit = trump_suit ∧ current_best.suit = trump_suit then
    current_best.rank < challenger.rank
  else if challenger.suit = led_suit ∧ current_best.suit = led_suit then
    current_best.rank < challenger.rank
  else if challenger.suit = led_suit ∧ ¬ current_best.suit = led_suit then
    true
  else
    false

/-- Winner scan of game_logic.resolve_trick: start from the first card
played and challenge with each later card in play order. -/
def trickWinnerScan (best : String × Card) (rest : List (String × Card))
    (led_suit trump_suit : Suit) : String × Card :=
  match rest with
  | [] => best
  | pc :: t =>
    if beats pc.2 best.2 led_suit trump_suit then
      trickWinnerScan pc t led_suit trump_suit
    else
      trickWinnerScan best t led_suit trump_suit

/-- Winner of a trick as computed by resolve_trick: the led suit is the
suit of the first card played; none models the assertion failure on an
empty trick. -/
def resolveTrickWinner (t : Trick) (trump_suit : Suit) :
    Option (String × Card) :=
  match t.cards_played with
  | [] => none
  | pc :: rest => some (trickWinnerScan pc rest pc.2.suit trump_suit)

/-- Helper: the scan always answers with one of the competitors. -/
lemma trickWinnerScan_mem (rest : List (String × Card))
    (best : String × Card) (led_suit trump_suit : Suit) :
    trickWinnerScan best rest led_suit trump_suit = best ∨
      trickWinnerScan best rest led_suit trump_suit ∈ rest := by
  induction rest generalizing best with
  | nil => exact Or.inl rfl
  | cons pc t ih =>
    unfold trickWinnerScan
    by_cases hb : beats pc.2 best.2 led_suit trump_suit
    · rw [if_pos hb]
      rcases ih pc with h | h
      · exact Or.inr (by rw [h]; exact List.mem_cons_self pc t)
      · exact Or.inr (List.mem_cons_of_mem pc h)
    · rw [if_neg hb]
      rcases ih best with h | h
      · exact Or.inl h
      · exact Or.inr (List.mem_cons_of_mem pc h)

/-- C5: the trick winner is one of the played cards and is computed by
the pairwise beats relation, which satisfies: trump beats non-trump and
never loses to non-trump; between trumps the higher rank wins; between
non-trumps a led-suit card beats an off-suit card, two led-suit cards
compare by rank, and a card that is neither trump nor of the led suit
beats nothing; resolution of the same trick is deterministic. -/
theorem c5_trick_resolution :
    (∀ (t : Trick) (trump : Suit) (w : String × Card),
      resolveTrickWinner t trump = some w → w ∈ t.cards_played) ∧
    (∀ (c b : Card) (led trump : Suit),
      c.suit = trump → ¬ b.suit = trump → beats c b led trump = true) ∧
    (∀ (c b : Card) (led trump : Suit),
      ¬ c.suit = trump → b.suit = trump → beats c b led trump = false) ∧
    (∀ (c b : Card) (led trump : Suit),
      c.suit = trump → b.suit = trump →
      (beats c b led trump = true ↔ b.rank < c.rank)) ∧
    (∀ (c b : Card) (led trump : Suit),
      ¬ c.suit = trump → ¬ b.suit = trump → c.suit = led → b.suit = led →
      (beats c b led trump = true ↔ b.rank < c.rank)) ∧
    (∀ (c b : Card) (led trump : Suit),
      ¬ c.suit = trump → ¬ b.suit = trump → c.suit = led → ¬ b.suit = led →
      beats c b led trump = true) ∧
    (∀ (c b : Card) (led trump : Suit),
      ¬ c.suit = trump → ¬ c.suit = led → beats c b led trump = false) ∧
    (∀ (t : Trick) (trump : Suit),
      resolveTrickWinner t trump = resolveTrickWinner t trump) := by
  refine ⟨?_, ?_, ?_, ?_, ?_, ?_, ?_, fun t trump => rfl⟩
  · intro t trump w hw
    unfold resolveTrickWinner at hw
    match hc : t.cards_played with
    | [] => rw [hc] at hw; exact absurd hw (by simp)
    | pc :: rest =>
      rw [hc] at hw
      rw [Option.some_inj] at hw
      rcases trickWinnerScan_mem rest pc pc.2.suit trump with h | h
      · rw [← hw, h]
        exact List.mem_cons_self pc rest
      · rw [← hw]
        exact List.mem_cons_of_mem pc h
  · intro c b led trump hc hb
    simp [beats, hc, hb]
  · intro c b led trump hc hb
    simp [beats, hc, hb]
  · intro c b led trump hc hb
    simp [beats, hc, hb]
  · intro c b led trump hct hbt hcl hbl
    simp [beats, hct, hbt, hcl, hbl]
  · intro c b led trump hct hbt hcl hbl
    simp [beats, hct, hbt, hcl, hbl]
  · intro c b led trump hct hcl
    by_cases hbt : b.suit = trump
    · simp [beats, hct, hbt]
    · simp [beats, hct, hbt, hcl]

/-- C5 witness: a concrete trump two beats a non-trump ace. -/
theorem c5_trick_resolution_witness :
    beats { suit := Suit.spades, rank := 2 }
        { suit := Suit.hearts, rank := 14 } Suit.hearts Suit.spades =
      true :=
  c5_trick_resolution.2.1 { suit := Suit.spades, rank := 2 }
    { suit := Suit.hearts, rank := 14 } Suit.hearts Suit.spades
    (by decide) (by decide)

/-- First player with the given id (models.Game.get_player_by_id). -/
def Game.get_player_by_id (g : Game) (player_id : String) : Option Player :=
  g.players.find? (fun p => p.id = player_id)

/-- game_logic.get_valid_cards: empty answer without an active trick or
a known player; free lead when the trick is empty; otherwise the cards
of the led suit when the hand holds any, else the whole hand. -/
def getValidCards (g : Game) (player_id : String) : List Card :=
  match g.current_round with
  | none => []
  | some r =>
    match r.current_trick with
    | none => []
    | some trick =>
      match g.get_player_by_id player_id with
      | none => []
      | some player =>
        match trick.cards_played with
        | [] => player.hand
        | pc :: _ =>
          let suited_cards := player.hand.filter (fun c => c.suit = pc.2.suit)
          if ¬ suited_cards = [] then suited_cards else player.hand

/-- C6: with an active trick, a player's legal cards are the whole hand
on a free lead; otherwise exactly the cards of the suit led by the
first card of the trick when the hand holds any card of that suit, and
the whole hand when it holds none. -/
theorem c6_valid_cards (g : Game) (player_id : String) (r : RoundState)
    (trick : Trick) (player : Player)
    (hr : g.current_round = some r)
    (ht : r.current_trick = some trick)
    (hp : g.get_player_by_id player_id = some player) :
    (trick.cards_played = [] → getValidCards g player_id = player.hand) ∧
    (∀ (pc : String × Card) (rest : List (String × Card)),
      trick.cards_played = pc :: rest →
      ((∃ c ∈ player.hand, c.suit = pc.2.suit) →
        getValidCards g player_id =
          player.hand.filter (fun c => c.suit = pc.2.suit)) ∧
      ((∀ c ∈ player.hand, ¬ c.suit = pc.2.suit) →
        getValidCards g player_id = player.hand)) := by
  unfold getValidCards
  rw [hr]
  dsimp only
  rw [ht]
  dsimp only
  rw [hp]
  dsimp only
  constructor
  · intro hempty
    rw [hempty]
  · intro pc rest hcons
    rw [hcons]
    dsimp only
    constructor
    · rintro ⟨c, hc, hsuit⟩
      have hne : ¬ player.hand.filter (fun c => c.suit = pc.2.suit) = [] := by
        intro hnil
        have : c ∈ player.hand.filter (fun c => c.suit = pc.2.suit) :=
          List.mem_filter.mpr ⟨hc, by simp [hsuit]⟩
        rw [hnil] at this
        exact absurd this (List.not_mem_nil c)
      rw [if_pos hne]
    · intro hnone
      have hnil : player.hand.filter (fun c => c.suit = pc.2.suit) = [] :=
        List.filter_eq_nil.mpr (fun c hc => by simp [hnone c hc])
      rw [hnil]
      simp

/-- Cards and a one-card trick for the play-phase witnesses. -/
def trickLedSpades : Trick :=
  { lead_player_id := "b",
    cards_played := [("b", { suit := Suit.spades, rank := 9 })],
    winner_id := none }

def roundPlaying1 : RoundState :=
  { roundBid1 with
    bids := [("b", 0), ("c", 0), ("d", 1), ("a", 1)],
    current_bidder_index := 4,
    current_trick := some trickLedSpades }

/-- The four-player game mid-trick: Alice holds a spade and a heart and
must follow spades. -/
def gamePlaying4 : Game :=
  { gameBidding4 with
    phase := GamePhase.playing,
    current_round := some roundPlaying1,
    current_turn_index := 2,
    players :=
      [{ playerA with
         hand := [{ suit := Suit.spades, rank := 5 },
                  { suit := Suit.hearts, rank := 7 }], bid := some 1 },
       { playerB with hand := [], bid := some 0 },
       { playerC with
         hand := [{ suit := Suit.clubs, rank := 3 }], bid := some 0 },
       { playerD with
         hand := [{ suit := Suit.diamonds, rank := 4 }], bid := some 1 }] }

/-- C6 witness: holding a spade while spades were led, Alice's legal
cards are exactly her spades. -/
theorem c6_valid_cards_witness :
    getValidCards gamePlaying4 "a" =
      [{ suit := Suit.spades, rank := 5 }] := by
  have h := (c6_valid_cards gamePlaying4 "a" roundPlaying1 trickLedSpades
    { playerA with
      hand := [{ suit := Suit.spades, rank := 5 },
               { suit := Suit.hearts, rank := 7 }], bid := some 1 }
    (by decide) (by decide) (by decide)).2
    ("b", { suit := Suit.spades, rank := 9 }) [] (by decide)
  have h2 := h.1 ⟨{ suit := Suit.spades, rank := 5 }, by decide, by decide⟩
  rw [h2]
  decide

/-- Update the first player with the given id (Python mutates the
object found by get_player_by_id, ids being unique per room). -/
def updateFirstPlayer (ps : List Player) (player_id : String)
    (f : Player → Player) : List Player :=
  match ps with
  | [] => []
  | p :: t =>
    if p.id = player_id then f p :: t
    else p :: updateFirstPlayer t player_id f

/-- game_logic.start_first_trick: lead is the seat left of the dealer,
phase becomes playing, a fresh trick is created.  The source asserts an
active round and indexes the player list at the lead index (always in
range on reachable calls); both are totalized to the unchanged game. -/
def startFirstTrick (g : Game) : Game :=
  match g.current_round with
  | none => g
  | some r =>
    let lead_index := (g.dealer_index + 1) % g.players.length
    match g.players.get? lead_index with
    | none => g
    | some lead_player =>
      { g with
        current_turn_index := lead_index,
        phase := GamePhase.playing,
        current_round := some
          { r with
            current_trick := some
              { lead_player_id := lead_player.id, cards_played := [],
                winner_id := none },
            trick_number := 0 } }

/-- game_logic.place_bid: record the bid in the round dict and on the
player, advance the bidding position, and hand over to the first trick
once every player has bid.  The source assert on an active round is
totalized to the unchanged game. -/
def placeBid (g : Game) (player_id : String) (bid : Int) : Game :=
  match g.current_round with
  | none => g
  | some r =>
    let r1 := { r with bids := dictSet r.bids player_id bid }
    let players1 := updateFirstPlayer g.players player_id
      (fun p => { p with bid := some bid })
    let r2 := { r1 with current_bidder_index := r1.current_bidder_index + 1 }
    let g1 := { g with players := players1, current_round := some r2 }
    if g1.players.length ≤ r2.current_bidder_index then startFirstTrick g1
    else g1

/-- game_logic.validate_play.  The turn lookup indexes the player list
at current_turn_index; the out-of-range case (an index error in the
source, unreachable in served states) is totalized to the out-of-turn
error. -/
def validatePlay (g : Game) (player_id : String) (card : Card) :
    Option String :=
  if g.phase ≠ GamePhase.playing then some "Not in playing phase"
  else
    match g.current_round with
    | none => some "No active trick"
    | some r =>
      match r.current_trick with
      | none => some "No active trick"
      | some _ =>
        match g.players.get? g.current_turn_index with
        | none => some "Not your turn"
        | some current_player =>
          if current_player.id ≠ player_id then some "Not your turn"
          else
            match g.get_player_by_id player_id with
            | none => some "Player not found"
            | some player =>
              if ¬ card ∈ player.hand then some "You do not have that card"
              else if ¬ card ∈ getValidCards g player_id then
                some "You must follow suit"
              else none

/-- Result dict of game_logic.resolve_trick (the serialized trick echo
is omitted). -/
structure TrickResult where
  winner_id : String
  winner_name : String
  winning_card : Card
  round_over : Bool
deriving DecidableEq, Repr

/-- game_logic.resolve_trick: scan the played cards for the winner,
mark the trick, credit the winner, archive the trick, and either signal
round over or start the next trick led by the winner.  none models the
source assertions (active round, active non-empty trick, winner found
among the players). -/
def resolveTrick (g : Game) : Option (Game × TrickResult) :=
  match g.current_round with
  | none => none
  | some r =>
    match r.current_trick with
    | none => none
    | some trick =>
      match trick.cards_played with
      | [] => none
      | pc :: rest =>
        let led_suit := pc.2.suit
        let best := trickWinnerScan pc rest led_suit r.trump_suit
        let trick1 := { trick with winner_id := some best.1 }
        match g.get_player_by_id best.1 with
        | none => none
        | some winner =>
          let players1 := updateFirstPlayer g.players best.1
            (fun p => { p with tricks_won := p.tricks_won + 1 })
          let r1 :=
            { r with
              current_trick := some trick1,
              tricks_completed := r.tricks_completed ++ [trick1],
              trick_number := r.trick_number + 1 }
          let g1 := { g with players := players1, current_round := some r1 }
          let result :=
            { winner_id := best.1, winner_name := winner.name,
              winning_card := best.2, round_over := true : TrickResult }
          if r.num_cards ≤ r1.trick_number then some (g1, result)
          else
            let winner_index := g1.players.findIdx (fun p => p.id = best.1)
            let r2 :=
              { r1 with
                current_trick := some
                  { lead_player_id := best.1, cards_played := [],
                    winner_id := none } }
            some
              ({ g1 with
                 current_turn_index := winner_index,
                 current_round := some r2 },
               { result with round_over := false })

/-- game_logic.play_card: remove the card from the hand (first
occurrence, as Python list.remove), append it to the trick, advance the
turn circularly, and resolve the trick once complete.  none models the
source assertions. -/
def playCard (g : Game) (player_id : String) (card : Card) :
    Option (Game × Option TrickResult) :=
  match g.current_round with
  | none => none
  | some r =>
    match r.current_trick with
    | none => none
    | some trick =>
      match g.get_player_by_id player_id with
      | none => none
      | some _ =>
        let players1 := updateFirstPlayer g.players player_id
          (fun p => { p with hand := p.hand.erase card })
        let trick1 :=
          { trick with
            cards_played := trick.cards_played ++ [(player_id, card)] }
        let r1 := { r with current_trick := some trick1 }
        let g1 :=
          { g with
            players := players1, current_round := some r1,
            current_turn_index :=
              (g.current_turn_index + 1) % g.players.length }
        if trick1.cards_played.length = g1.players.length then
          match resolveTrick g1 with
          | none => none
          | some (g2, res) => some (g2, some res)
        else
          some (g1, none)

/-- websocket_handler._handle_place_bid after room lookup: reject a
missing bid value, validate, and mutate via place_bid only on success.
The second component is the error sent back to the offending player. -/
def handlePlaceBid (g : Game) (player_id : String) (bid? : Option Int) :
    Game × Option String :=
  match bid? with
  | none => (g, some "Bid value required")
  | some bid =>
    match validateBid g player_id bid with
    | some error => (g, some error)
    | none => (placeBid g player_id bid, none)

/-- Suit constructor lookup, as models.Suit applied to a raw string
raises ValueError on anything else. -/
def parseSuit : String → Option Suit
  | "spades" => some Suit.spades
  | "diamonds" => some Suit.diamonds
  | "clubs" => some Suit.clubs
  | "hearts" => some Suit.hearts
  | _ => none

/-- Rank constructor lookup, as models.Rank applied to a raw int raises
ValueError outside 2..14. -/
def parseRank (v : Int) : Option Nat :=
  if 2 ≤ v ∧ v ≤ 14 then some v.toNat else none

/-- websocket_handler._handle_play_card after room lookup: parse the
card (a missing rank is the TypeError path of int(None)), validate, and
mutate via play_card only on success. -/
def handlePlayCard (g : Game) (player_id : String) (suit_str : String)
    (rank_val? : Option Int) : Game × Option String :=
  match rank_val? with
  | none => (g, some "Invalid card")
  | some rank_val =>
    match parseSuit suit_str, parseRank rank_val with
    | some suit, some rank =>
      let card : Card := { suit := suit, rank := rank }
      match validatePlay g player_id card with
      | some error => (g, some error)
      | none =>
        match playCard g player_id card with
        | some gr => (gr.1, none)
        | none => (g, none)
    | some _, none => (g, some "Invalid card")
    | none, some _ => (g, some "Invalid card")
    | none, none => (g, some "Invalid card")

/-- C7: whenever a place_bid or play_card request is answered with an
error (wrong phase, out of turn, bad or forbidden bid, malformed card,
card not held, suit violation), the handler returns the game state
unchanged — validation completes before any mutation begins. -/
theorem c7_validation_failure_no_mutation :
    (∀ (g : Game) (player_id : String) (bid? : Option Int) (e : String),
      (handlePlaceBid g player_id bid?).2 = some e →
      (handlePlaceBid g player_id bid?).1 = g) ∧
    (∀ (g : Game) (player_id suit_str : String) (rank_val? : Option Int)
      (e : String),
      (handlePlayCard g player_id suit_str rank_val?).2 = some e →
      (handlePlayCard g player_id suit_str rank_val?).1 = g) := by
  constructor
  · intro g player_id bid? e h
    match bid? with
    | none => rfl
    | some bid =>
      unfold handlePlaceBid at h ⊢
      dsimp only at h ⊢
      rcases hv : validateBid g player_id bid with _ | err
      · rw [hv] at h
        simp at h
      · rfl
  · intro g player_id suit_str rank_val? e h
    match rank_val? with
    | none => rfl
    | some rank_val =>
      unfold handlePlayCard at h ⊢
      dsimp only at h ⊢
      rcases hs : parseSuit suit_str with _ | suit
      · rcases hrk : parseRank rank_val with _ | rank
        · rfl
        · rfl
      · rcases hrk : parseRank rank_val with _ | rank
        · rfl
        · rw [hs, hrk] at h
          dsimp only at h
          rcases hv : validatePlay g player_id { suit := suit, rank := rank }
            with _ | err
          · rw [hv] at h
            dsimp only at h
            rcases hp : playCard g player_id { suit := suit, rank := rank }
              with _ | gr
            · rw [hp] at h
              simp at h
            · rw [hp] at h
              simp at h
          · dsimp only
            rw [hv]

/-- C7 witness: bidding while the game is still waiting is rejected and
leaves the game untouched. -/
theorem c7_validation_failure_no_mutation_witness :
    (handlePlaceBid gameWaiting4 "a" (some 0)).1 = gameWaiting4 :=
  c7_validation_failure_no_mutation.1 gameWaiting4 "a" (some 0)
    "Not in bidding phase" (by decide)

/-- Registry state of room_manager.RoomManager: live rooms by code and
the player_id to room_code lookup table. -/
structure RoomManager where
  rooms : List (String × Game)
  player_rooms : List (String × String)
deriving DecidableEq, Repr

/-- Rebind the id of the first player with the given name
(room_manager.join_room mutates the player found by name). -/
def rebindFirstByName (ps : List Player) (player_name new_id : String) :
    List Player :=
  match ps with
  | [] => []
  | p :: t =>
    if p.name = player_name then { p with id := new_id } :: t
    else p :: rebindFirstByName t player_name new_id

/-- Reconnection rebind inside room_manager.join_room: swap old_id for
the new player_id across the player record (found by name), host_id,
the round bids key, and the current trick, which join_room mutates in
place.  After the last trick of a round resolve_trick appends the
trick object to tricks_completed without replacing current_trick, so
current_trick then aliases tricks_completed[-1] and the in-place
assignment also rewrites that archived trick.  On every reachable heap
an archived trick is value-equal to the current trick exactly when it
is that shared object: archived tricks carry a winner_id and pairwise
distinct card sets, while a non-aliased current trick is unresolved.
The aliasing is therefore modelled by rewriting every archived trick
equal in value to the current one. -/
def rebindIdentity (game : Game) (player_name player_id old_id : String) :
    Game :=
  let players1 := rebindFirstByName game.players player_name player_id
  let host1 := if game.host_id = old_id then player_id else game.host_id
  let round1 :=
    match game.current_round with
    | none => none
    | some r =>
      let bids1 :=
        match dictGet? r.bids old_id with
        | some v => dictSet (dictPop r.bids old_id) player_id v
        | none => r.bids
      match r.current_trick with
      | none => some { r with bids := bids1 }
      | some trick =>
        let trick1 :=
          { trick with
            lead_player_id :=
              if trick.lead_player_id = old_id then player_id
              else trick.lead_player_id,
            cards_played := trick.cards_played.map
              (fun pc =>
                (if pc.1 = old_id then player_id else pc.1, pc.2)) }
        some
          { r with
            bids := bids1,
            current_trick := some trick1,
            tricks_completed := r.tricks_completed.map
              (fun t => if t = trick then trick1 else t) }
  { game with
    players := players1, host_id := host1, current_round := round1 }

/-- Python str.upper character by character, as room codes are ASCII
(String.toUpper of the library is equivalent here but does not reduce
in the kernel). -/
def strUpper (s : String) : String := ⟨s.data.map Char.toUpper⟩

/-- room_manager.RoomManager.join_room: code normalized to upper case;
idempotent when the id is already seated; reconnection-by-name rebinds
the player identity across game and registry when the game is in
progress; otherwise the waiting room checks capacity and name
uniqueness and appends a new player. -/
def joinRoom (m : RoomManager) (room_code player_id player_name : String) :
    RoomManager × Option Game × String × Option String :=
  let code := strUpper room_code
  match dictGet? m.rooms code with
  | none => (m, none, "Room not found", none)
  | some game =>
    if game.players.any (fun p => p.id = player_id) then
      (m, some game, "", none)
    else if game.phase ≠ GamePhase.waiting then
      match game.players.find? (fun p => p.name = player_name) with
      | some existing =>
        let old_id := existing.id
        let game1 := rebindIdentity game player_name player_id old_id
        let m1 : RoomManager :=
          { rooms := dictSet m.rooms code game1,
            player_rooms :=
              dictSet (dictPop m.player_rooms old_id) player_id code }
        (m1, some game1, "", some old_id)
      | none => (m, none, "Game already in progress", none)
    else if 6 ≤ game.players.length then
      (m, none, "Room is full (max 6 players)", none)
    else if game.players.any (fun p => p.name = player_name) then
      (m, none, "Name already taken in this room", none)
    else
      let new_player : Player :=
        { id := player_id, name := player_name, hand := [], bid := none,
          tricks_won := 0, total_score := 0 }
      let game1 := { game with players := game.players ++ [new_player] }
      ({ rooms := dictSet m.rooms code game1,
         player_rooms := dictSet m.player_rooms player_id code },
       some game1, "", none)

/-- Helper: reading a dict at a cons. -/
lemma dictGet?_cons {α : Type} (kv : String × α) (t : List (String × α))
    (k : String) :
    dictGet? (kv :: t) k =
      if kv.1 = k then some kv.2 else dictGet? t k := by
  by_cases h : kv.1 = k <;> simp [dictGet?, List.find?_cons, h]

/-- Helper: a key absent from the key list reads as none. -/
lemma dictGet?_eq_none {α : Type} (d : List (String × α)) (k : String)
    (h : ¬ k ∈ d.map Prod.fst) : dictGet? d k = none := by
  induction d with
  | nil => rfl
  | cons kv t ih =>
    rw [dictGet?_cons]
    rw [List.map_cons, List.mem_cons] at h
    push_neg at h
    rw [if_neg (fun he => h.1 he.symm)]
    exact ih h.2

/-- Helper: the in-place-update half of dictSet read at another key. -/
lemma dictGet?_mapUpdate_ne {α : Type} (d : List (String × α))
    (k k2 : String) (v : α) (hne : ¬ k2 = k) :
    dictGet? (d.map (fun kv => if kv.1 = k then (k, v) else kv)) k2 =
      dictGet? d k2 := by
  induction d with
  | nil => rfl
  | cons kv t ih =>
    rw [List.map_cons]
    by_cases h1 : kv.1 = k
    · rw [if_pos h1, dictGet?_cons, dictGet?_cons]
      rw [if_neg (fun h => hne h.symm), if_neg (h1 ▸ fun h => hne h.symm)]
      exact ih
    · rw [if_neg h1, dictGet?_cons, dictGet?_cons]
      by_cases h2 : kv.1 = k2
      · rw [if_pos h2, if_pos h2]
      · rw [if_neg h2, if_neg h2]
        exact ih

/-- Helper: the append half of dictSet read at another key. -/
lemma dictGet?_append_single_ne {α : Type} (d : List (String × α))
    (k k2 : String) (v : α) (hne : ¬ k2 = k) :
    dictGet? (d ++ [(k, v)]) k2 = dictGet? d k2 := by
  induction d with
  | nil =>
    rw [List.nil_append, dictGet?_cons]
    exact if_neg (fun h => hne h.symm)
  | cons kv t ih =>
    rw [List.cons_append, dictGet?_cons, dictGet?_cons]
    by_cases h2 : kv.1 = k2
    · rw [if_pos h2, if_pos h2]
    · rw [if_neg h2, if_neg h2]
      exact ih

/-- Helper: writing one key leaves reads of other keys unchanged. -/
lemma dictGet?_dictSet_ne {α : Type} (d : List (String × α))
    (k k2 : String) (v : α) (hne : ¬ k2 = k) :
    dictGet? (dictSet d k v) k2 = dictGet? d k2 := by
  unfold dictSet
  by_cases h : (d.find? (fun kv => kv.1 = k)).isSome
  · rw [if_pos h]
    exact dictGet?_mapUpdate_ne d k k2 v hne
  · rw [if_neg h]
    exact dictGet?_append_single_ne d k k2 v hne

/-- Helper: writing a key then reading it gives the written value. -/
lemma dictGet?_dictSet_self {α : Type} (d : List (String × α))
    (k : String) (v : α) : dictGet? (dictSet d k v) k = some v := by
  induction d with
  | nil => simp [dictSet, dictGet?]
  | cons kv t ih =>
    unfold dictSet at ih ⊢
    by_cases h1 : kv.1 = k
    · rw [List.find?_cons_of_pos _ (by simp [h1])]
      rw [if_pos (by simp), List.map_cons, if_pos h1, dictGet?_cons]
      simp
    · rw [List.find?_cons_of_neg _ (by simp [h1])]
      by_cases h2 : (List.find? (fun kv => decide (kv.1 = k)) t).isSome
      · rw [if_pos h2, List.map_cons, if_neg h1, dictGet?_cons, if_neg h1]
        rw [if_pos h2] at ih
        exact ih
      · rw [if_neg h2, List.cons_append, dictGet?_cons, if_neg h1]
        rw [if_neg h2] at ih
        exact ih

/-- Helper: after popping a key whose key list has no duplicates, the
key reads as none. -/
lemma dictGet?_dictPop_self {α : Type} (d : List (String × α))
    (k : String) (hnd : (d.map Prod.fst).Nodup) :
    dictGet? (dictPop d k) k = none := by
  induction d with
  | nil => rfl
  | cons kv t ih =>
    rw [List.map_cons, List.nodup_cons] at hnd
    unfold dictPop
    by_cases h1 : kv.1 = k
    · rw [if_pos h1]
      exact dictGet?_eq_none t k (h1 ▸ hnd.1)
    · rw [if_neg h1, dictGet?_cons, if_neg h1]
      exact ih hnd.2

/-- Helper: popping a key leaves reads of other keys unchanged. -/
lemma dictGet?_dictPop_ne {α : Type} (d : List (String × α))
    (k k2 : String) (hne : ¬ k2 = k) :
    dictGet? (dictPop d k) k2 = dictGet? d k2 := by
  induction d with
  | nil => rfl
  | cons kv t ih =>
    unfold dictPop
    by_cases h1 : kv.1 = k
    · rw [if_pos h1, dictGet?_cons, if_neg (h1 ▸ fun h => hne h.symm)]
    · rw [if_neg h1, dictGet?_cons, dictGet?_cons]
      by_cases h2 : kv.1 = k2
      · rw [if_pos h2, if_pos h2]
      · rw [if_neg h2, if_neg h2]
        exact ih

/-- Helper: rebindFirstByName changes exactly the first player whose
name matches, replacing only its id. -/
lemma rebindFirstByName_spec (ps : List Player)
    (player_name new_id : String) (q : Player)
    (hf : ps.find? (fun p => p.name = player_name) = some q) :
    ∃ i, ps.get? i = some q ∧
      (rebindFirstByName ps player_name new_id).get? i =
        some { q with id := new_id } ∧
      ∀ j, ¬ j = i →
        (rebindFirstByName ps player_name new_id).get? j = ps.get? j := by
  induction ps with
  | nil => simp [List.find?] at hf
  | cons p t ih =>
    by_cases h1 : p.name = player_name
    · rw [List.find?_cons_of_pos _ (by simp [h1])] at hf
      rw [Option.some_inj] at hf
      subst hf
      refine ⟨0, rfl, ?_, ?_⟩
      · unfold rebindFirstByName
        rw [if_pos h1]
        rfl
      · intro j hj
        unfold rebindFirstByName
        rw [if_pos h1]
        match j with
        | 0 => exact absurd rfl hj
        | j + 1 => rfl
    · rw [List.find?_cons_of_neg _ (by simp [h1])] at hf
      obtain ⟨i, hi1, hi2, hi3⟩ := ih hf
      refine ⟨i + 1, ?_, ?_, ?_⟩
      · simpa using hi1
      · unfold rebindFirstByName
        rw [if_neg h1]
        simpa using hi2
      · intro j hj
        unfold rebindFirstByName
        rw [if_neg h1]
        match j with
        | 0 => rfl
        | j + 1 =>
          have : ¬ j = i := fun h => hj (by rw [h])
          simpa using hi3 j this

/-- Helper: under the reconnection hypotheses join_room takes the
rebind branch and returns the rebound game and updated registry. -/
lemma joinRoom_reconnect_eq (m : RoomManager)
    (room_code player_id player_name : String) (game : Game)
    (existing : Player)
    (hroom : dictGet? m.rooms (strUpper room_code) = some game)
    (hphase : ¬ game.phase = GamePhase.waiting)
    (hnoid : game.players.any (fun p => p.id = player_id) = false)
    (hfind : game.players.find? (fun p => p.name = player_name) =
      some existing) :
    joinRoom m room_code player_id player_name =
      ({ rooms := dictSet m.rooms (strUpper room_code)
           (rebindIdentity game player_name player_id existing.id),
         player_rooms := dictSet (dictPop m.player_rooms existing.id)
           player_id (strUpper room_code) },
       some (rebindIdentity game player_name player_id existing.id), "",
       some existing.id) := by
  unfold joinRoom
  dsimp only
  rw [hroom]
  dsimp only
  rw [hnoid]
  rw [if_neg (by simp)]
  rw [if_pos hphase, hfind]

/-- C8: joining an in-progress room under a seated player's name with a
fresh connection id rebinds that player's identity everywhere: player
record (keeping hand, bid and total score), host pointer when it was
the old id, current-round bids key, current-trick lead and played-card
references, and the registry lookup, whose old-id entry disappears. -/
theorem c8_reconnect_rebinds_identity (m : RoomManager)
    (room_code player_id player_name : String) (game : Game)
    (existing : Player)
    (hroom : dictGet? m.rooms (strUpper room_code) = some game)
    (hphase : ¬ game.phase = GamePhase.waiting)
    (hnoid : game.players.any (fun p => p.id = player_id) = false)
    (hfind : game.players.find? (fun p => p.name = player_name) =
      some existing)
    (hpr : (m.player_rooms.map Prod.fst).Nodup) :
    ∃ m1 game1,
      joinRoom m room_code player_id player_name =
        (m1, some game1, "", some existing.id) ∧
      (∃ i, game.players.get? i = some existing ∧
        game1.players.get? i = some { existing with id := player_id } ∧
        (∀ j, ¬ j = i → game1.players.get? j = game.players.get? j)) ∧
      ({ existing with id := player_id }.hand = existing.hand ∧
        { existing with id := player_id }.bid = existing.bid ∧
        { existing with id := player_id }.total_score =
          existing.total_score) ∧
      game1.host_id =
        (if game.host_id = existing.id then player_id else game.host_id) ∧
      (∀ r v, game.current_round = some r →
        (r.bids.map Prod.fst).Nodup →
        dictGet? r.bids existing.id = some v →
        ∃ r1, game1.current_round = some r1 ∧
          dictGet? r1.bids player_id = some v ∧
          dictGet? r1.bids existing.id = none) ∧
      (∀ r trick, game.current_round = some r →
        r.current_trick = some trick →
        ∃ r1 trick1, game1.current_round = some r1 ∧
          r1.current_trick = some trick1 ∧
          trick1.lead_player_id =
            (if trick.lead_player_id = existing.id then player_id
             else trick.lead_player_id) ∧
          trick1.cards_played = trick.cards_played.map
            (fun pc =>
              (if pc.1 = existing.id then player_id else pc.1, pc.2))) ∧
      dictGet? m1.player_rooms existing.id = none ∧
      dictGet? m1.player_rooms player_id = some (strUpper room_code) := by
  have hne : ¬ existing.id = player_id := by
    have hmem : existing ∈ game.players := List.mem_of_find?_eq_some hfind
    intro h
    rw [List.any_eq_false] at hnoid
    have := hnoid existing hmem
    simp [h] at this
  refine ⟨_, _, joinRoom_reconnect_eq m room_code player_id player_name
      game existing hroom hphase hnoid hfind,
    ?_, ⟨rfl, rfl, rfl⟩, rfl, ?_, ?_, ?_, ?_⟩
  · exact rebindFirstByName_spec game.players player_name player_id
      existing hfind
  · intro r v hr hbnd hv
    have hcr : ∃ r1,
        (rebindIdentity game player_name player_id
          existing.id).current_round = some r1 ∧
        r1.bids = dictSet (dictPop r.bids existing.id) player_id v := by
      unfold rebindIdentity
      dsimp only
      rw [hr]
      dsimp only
      rw [hv]
      rcases htr : r.current_trick with _ | trick
      · exact ⟨_, rfl, rfl⟩
      · exact ⟨_, rfl, rfl⟩
    obtain ⟨r1, h1, h2⟩ := hcr
    refine ⟨r1, h1, ?_, ?_⟩
    · rw [h2]
      exact dictGet?_dictSet_self _ _ _
    · rw [h2, dictGet?_dictSet_ne _ _ _ _ hne]
      exact dictGet?_dictPop_self _ _ hbnd
  · intro r trick hr htr
    have hcr : ∃ r1,
        (rebindIdentity game player_name player_id
          existing.id).current_round = some r1 ∧
        r1.current_trick = some
          { trick with
            lead_player_id :=
              if trick.lead_player_id = existing.id then player_id
              else trick.lead_player_id,
            cards_played := trick.cards_played.map
              (fun pc =>
                (if pc.1 = existing.id then player_id else pc.1,
                  pc.2)) } := by
      unfold rebindIdentity
      dsimp only
      rw [hr]
      dsimp only
      rw [htr]
      exact ⟨_, rfl, rfl⟩
    obtain ⟨r1, h1, h2⟩ := hcr
    exact ⟨r1, _, h1, h2, rfl, rfl⟩
  · show dictGet? (dictSet (dictPop m.player_rooms existing.id)
        player_id (strUpper room_code)) existing.id = none
    rw [dictGet?_dictSet_ne _ _ _ _ hne]
    exact dictGet?_dictPop_self _ _ hpr
  · show dictGet? (dictSet (dictPop m.player_rooms existing.id)
        player_id (strUpper room_code)) player_id = some (strUpper room_code)
    exact dictGet?_dictSet_self _ _ _

/-- C10 (amended): reconnection rebinding touches the completed tricks
of the current round only through the aliasing left behind by
resolve_trick: every archived trick that is not the shared
current-trick object keeps its entry unchanged (so its cards_played
references still hold the old id), the winner_id of every archived
trick is never touched, and when there is no current trick the whole
archive is untouched; only the archived trick aliased by current_trick
after the round's last trick is rewritten along with it. -/
theorem c10_completed_tricks_frame (m : RoomManager)
    (room_code player_id player_name : String) (game : Game)
    (existing : Player) (r : RoundState)
    (hroom : dictGet? m.rooms (strUpper room_code) = some game)
    (hphase : ¬ game.phase = GamePhase.waiting)
    (hnoid : game.players.any (fun p => p.id = player_id) = false)
    (hfind : game.players.find? (fun p => p.name = player_name) =
      some existing)
    (hr : game.current_round = some r) :
    ∃ game1 r1,
      (joinRoom m room_code player_id player_name).2.1 = some game1 ∧
      game1.current_round = some r1 ∧
      (r.current_trick = none →
        r1.tricks_completed = r.tricks_completed) ∧
      (∀ trick, r.current_trick = some trick →
        (∀ i t, r.tricks_completed.get? i = some t → ¬ t = trick →
          r1.tricks_completed.get? i = some t) ∧
        (∀ i t, r.tricks_completed.get? i = some t →
          ∃ t1, r1.tricks_completed.get? i = some t1 ∧
            t1.winner_id = t.winner_id)) := by
  rw [joinRoom_reconnect_eq m room_code player_id player_name game
    existing hroom hphase hnoid hfind]
  rcases htr : r.current_trick with _ | trick
  · have hcr : ∃ r1,
        (rebindIdentity game player_name player_id
          existing.id).current_round = some r1 ∧
        r1.tricks_completed = r.tricks_completed := by
      unfold rebindIdentity
      dsimp only
      rw [hr]
      dsimp only
      rw [htr]
      exact ⟨_, rfl, rfl⟩
    obtain ⟨r1, h1, h2⟩ := hcr
    refine ⟨_, r1, rfl, h1, fun _ => h2, ?_⟩
    intro trick habs
    simp [htr] at habs
  · have hcr : ∃ r1,
        (rebindIdentity game player_name player_id
          existing.id).current_round = some r1 ∧
        r1.tricks_completed = r.tricks_completed.map
          (fun t => if t = trick then
            { trick with
              lead_player_id :=
                if trick.lead_player_id = existing.id then player_id
                else trick.lead_player_id,
              cards_played := trick.cards_played.map
                (fun pc =>
                  (if pc.1 = existing.id then player_id else pc.1,
                    pc.2)) }
            else t) := by
      unfold rebindIdentity
      dsimp only
      rw [hr]
      dsimp only
      rw [htr]
      exact ⟨_, rfl, rfl⟩
    obtain ⟨r1, h1, h2⟩ := hcr
    refine ⟨_, r1, rfl, h1, ?_, ?_⟩
    · intro habs
      simp [htr] at habs
    · intro trick2 htr2
      have heq : trick2 = trick := (Option.some_inj.mp htr2).symm
      rw [heq]
      constructor
      · intro i t hi hne
        rw [h2, List.get?_map, hi, Option.map_some']
        rw [if_neg hne]
      · intro i t hi
        rw [h2, List.get?_map, hi, Option.map_some']
        by_cases hteq : t = trick
        · rw [if_pos hteq]
          refine ⟨_, rfl, ?_⟩
          rw [hteq]
        · rw [if_neg hteq]
          exact ⟨t, rfl, rfl⟩

/-- A completed first trick, won by Alice under her old id. -/
def trickDone : Trick :=
  { lead_player_id := "a",
    cards_played :=
      [("a", { suit := Suit.spades, rank := 14 }),
       ("b", { suit := Suit.spades, rank := 2 }),
       ("c", { suit := Suit.hearts, rank := 3 }),
       ("d", { suit := Suit.clubs, rank := 4 })],
    winner_id := some "a" }

/-- The playing round with one archived trick. -/
def roundWithHistory : RoundState :=
  { roundPlaying1 with
    tricks_completed := [trickDone],
    trick_number := 1 }

/-- The in-progress game holding that round. -/
def gameInProgress4 : Game :=
  { gamePlaying4 with current_round := some roundWithHistory }

/-- Registry with the in-progress room and its four seated ids. -/
def managerJudge : RoomManager :=
  { rooms := [("ROOM01", gameInProgress4)],
    player_rooms :=
      [("a", "ROOM01"), ("b", "ROOM01"), ("c", "ROOM01"),
       ("d", "ROOM01")] }

/-- Alice's seat record while the game is in progress. -/
def alicePlaying : Player :=
  { playerA with
    hand := [{ suit := Suit.spades, rank := 5 },
             { suit := Suit.hearts, rank := 7 }],
    bid := some 1 }

/-- C8 witness: Alice reconnects into the in-progress room under the
fresh id z and every rebinding clause holds concretely. -/
theorem c8_reconnect_rebinds_identity_witness :
    ∃ m1 game1,
      joinRoom managerJudge "ROOM01" "z" "Alice" =
        (m1, some game1, "", some alicePlaying.id) ∧
      (∃ i, gameInProgress4.players.get? i = some alicePlaying ∧
        game1.players.get? i = some { alicePlaying with id := "z" } ∧
        (∀ j, ¬ j = i →
          game1.players.get? j = gameInProgress4.players.get? j)) ∧
      ({ alicePlaying with id := "z" }.hand = alicePlaying.hand ∧
        { alicePlaying with id := "z" }.bid = alicePlaying.bid ∧
        { alicePlaying with id := "z" }.total_score =
          alicePlaying.total_score) ∧
      game1.host_id =
        (if gameInProgress4.host_id = alicePlaying.id then "z"
         else gameInProgress4.host_id) ∧
      (∀ r v, gameInProgress4.current_round = some r →
        (r.bids.map Prod.fst).Nodup →
        dictGet? r.bids alicePlaying.id = some v →
        ∃ r1, game1.current_round = some r1 ∧
          dictGet? r1.bids "z" = some v ∧
          dictGet? r1.bids alicePlaying.id = none) ∧
      (∀ r trick, gameInProgress4.current_round = some r →
        r.current_trick = some trick →
        ∃ r1 trick1, game1.current_round = some r1 ∧
          r1.current_trick = some trick1 ∧
          trick1.lead_player_id =
            (if trick.lead_player_id = alicePlaying.id then "z"
             else trick.lead_player_id) ∧
          trick1.cards_played = trick.cards_played.map
            (fun pc =>
              (if pc.1 = alicePlaying.id then "z" else pc.1, pc.2))) ∧
      dictGet? m1.player_rooms alicePlaying.id = none ∧
      dictGet? m1.player_rooms "z" = some ((strUpper "ROOM01")) :=
  c8_reconnect_rebinds_identity managerJudge "ROOM01" "z" "Alice"
    gameInProgress4 alicePlaying (by decide) (by decide) (by decide)
    (by decide) (by decide)

/-- C10 witness: Alice reconnects as z mid-trick, so the archived
trick is not the current one: the frame theorem keeps its entry (with
her old id inside) and its winner untouched. -/
theorem c10_completed_tricks_frame_witness :
    ∃ game1 r1,
      (joinRoom managerJudge "ROOM01" "z" "Alice").2.1 = some game1 ∧
      game1.current_round = some r1 ∧
      (roundWithHistory.current_trick = none →
        r1.tricks_completed = roundWithHistory.tricks_completed) ∧
      (∀ trick, roundWithHistory.current_trick = some trick →
        (∀ i t, roundWithHistory.tricks_completed.get? i = some t →
          ¬ t = trick → r1.tricks_completed.get? i = some t) ∧
        (∀ i t, roundWithHistory.tricks_completed.get? i = some t →
          ∃ t1, r1.tricks_completed.get? i = some t1 ∧
            t1.winner_id = t.winner_id)) :=
  c10_completed_tricks_frame managerJudge "ROOM01" "z" "Alice"
    gameInProgress4 alicePlaying roundWithHistory (by decide)
    (by decide) (by decide) (by decide) (by decide)

/-- A finished one-card round: resolve_trick has archived the only
trick and, the round being over, left current_trick aliasing it. -/
def roundOver1 : RoundState :=
  { round_index := 0, num_cards := 1, trump_suit := Suit.spades,
    dealer_index := 0, current_bidder_index := 4,
    bids := [("b", 0), ("c", 0), ("d", 1), ("a", 1)],
    current_trick := some trickDone,
    tricks_completed := [trickDone], trick_number := 1 }

/-- The game between rounds, showing round results. -/
def gameRoundResult4 : Game :=
  { gameWaiting4 with
    phase := GamePhase.round_result,
    current_round := some roundOver1 }

/-- Registry with the between-rounds room and its four seated ids. -/
def managerOver : RoomManager :=
  { rooms := [("ROOM02", gameRoundResult4)],
    player_rooms :=
      [("a", "ROOM02"), ("b", "ROOM02"), ("c", "ROOM02"),
       ("d", "ROOM02")] }

/-- The archived trick after the reconnect rewrote it through the
current-trick alias: the played-card references now carry the new id
while winner_id still holds the old one. -/
def trickDoneRebound : Trick :=
  { lead_player_id := "z",
    cards_played :=
      [("z", { suit := Suit.spades, rank := 14 }),
       ("b", { suit := Suit.spades, rank := 2 }),
       ("c", { suit := Suit.hearts, rank := 3 }),
       ("d", { suit := Suit.clubs, rank := 4 })],
    winner_id := some "a" }

/-- C10 counterexample: reconnecting during round_result, after the
round's last trick, rewrites the completed trick through the aliasing
left by resolve_trick — its cards_played no longer references the old
id a, refuting the claim that completed tricks keep old-id references
and only the current trick is updated. -/
theorem c10_aliased_completed_trick_rewritten :
    roundOver1.tricks_completed.map
        (fun t => t.cards_played.map Prod.fst) = [["a", "b", "c", "d"]] ∧
      ((joinRoom managerOver "ROOM02" "z" "Alice").2.1.bind
        (fun g => g.current_round)).map (fun r => r.tricks_completed) =
        some [trickDoneRebound] ∧
      ¬ "a" ∈ trickDoneRebound.cards_played.map Prod.fst ∧
      "z" ∈ trickDoneRebound.cards_played.map Prod.fst := by
  refine ⟨by decide, by decide, by decide, by decide⟩
